import Mathlib

/-!
# Bank Lending System — shallow embedding and verification

A shallow embedding of the simple-interest loan service in `app.js`
(Express + SQLite).  Monetary values are modelled as exact rationals `ℚ`,
following the spec's stated precision policy that every monetary figure is
rounded to two decimals at the point where it is computed or reported.
JavaScript's `Math.round` rounds half toward `+∞`, so `round2` is
`⌊100·x + 1/2⌋ / 100`.  The one JavaScript value outside `ℚ` that the code
can produce is `Infinity` (from `Math.ceil(balance / 0)` when a loan's
stored `monthly_emi` is zero); we model the EMI-count result type as
`WithTop ℤ`, with `⊤` standing for that non-finite value.

The durable store (SQLite tables `customers`, `loans`, `payments`) is a
record of lists; `rowid` is the monotonically increasing integer SQLite
assigns at insertion, modelled by an explicit `nextRowid` counter.
Identifiers (uuid strings, customer ids, timestamps) are opaque; we model
them as `ℕ`.
-/

/-- Loan status column: `'ACTIVE'` or `'PAID_OFF'`. -/
inductive Status where
  | ACTIVE
  | PAID_OFF
deriving DecidableEq, Repr

/-- A row of the `payments` table.  `rowid` is SQLite's insertion sequence
number (used by the ledger query's `ORDER BY ... rowid ASC` tie-break). -/
structure Payment where
  payment_id : ℕ
  loan_id : ℕ
  amount : ℚ
  payment_type : String
  payment_date : ℕ
  rowid : ℕ
deriving DecidableEq, Repr

/-- A row of the `loans` table. -/
structure Loan where
  loan_id : ℕ
  customer_id : ℕ
  principal_amount : ℚ
  interest_rate : ℚ
  loan_period_years : ℕ
  total_amount : ℚ
  monthly_emi : ℚ
  status : Status
  created_at : ℕ
deriving DecidableEq, Repr

/-- The durable store: the three tables plus SQLite's rowid counter for the
`payments` table.  `payments` is kept in insertion order. -/
structure Store where
  customers : List ℕ
  loans : List Loan
  payments : List Payment
  nextRowid : ℕ
deriving DecidableEq, Repr

/-- The empty database the schema setup produces. -/
def initStore : Store := ⟨[], [], [], 0⟩

/-- `round2` from `app.js`: round to two decimals, halves toward `+∞`
(JavaScript `Math.round`; the `Number.EPSILON` nudge in the source exists
only to compensate for binary-float artifacts and is the identity on the
exact-decimal values modelled here). -/
def round2 (q : ℚ) : ℚ := (⌊q * 100 + 1/2⌋ : ℤ) / 100

/-- `computeSI` from `app.js`: simple interest `I = P·N·(R/100)` and total
`A = P + I`. -/
def computeSI (P : ℚ) (N : ℕ) (Rpct : ℚ) : ℚ × ℚ :=
  let I := P * N * (Rpct / 100)
  (I, P + I)

/-- The `emisLeft` expression of `totalsForLoan` (`app.js` line 71):
`balance <= 0 ? 0 : Math.ceil(balance / emi)`.  When `balance > 0` and
`emi = 0`, JavaScript computes `balance / 0 = Infinity` and
`Math.ceil(Infinity) = Infinity`; `⊤` models that non-finite result. -/
def emisLeftOf (balance emi : ℚ) : WithTop ℤ :=
  if balance ≤ 0 then ((0 : ℤ) : WithTop ℤ)
  else if emi = 0 then ⊤
  else ((⌈balance / emi⌉ : ℤ) : WithTop ℤ)

/-- The derived figures of `totalsForLoan` as a pure function of the loan's
stored totals and the list of stored payment amounts (the Engine's
`deriveStatus`):  `paid` is the reported rounded sum, `balance` is
`max(0, round2(total_amount − sum))`, `emisLeft` as in the source. -/
structure Totals where
  paid : ℚ
  balance : ℚ
  emisLeft : WithTop ℤ
deriving DecidableEq, Repr

/-- Pure core of `totalsForLoan` (`app.js` lines 65–73), parameterised by the
raw list of stored payment amounts for the loan. -/
def totalsFigures (total emi : ℚ) (amounts : List ℚ) : Totals :=
  let paid := amounts.sum
  let balance := max 0 (round2 (total - paid))
  { paid := round2 paid, balance := balance, emisLeft := emisLeftOf balance emi }

/-- The stored payment amounts of one loan, in insertion order
(`SELECT amount FROM payments WHERE loan_id = ?`). -/
def amountsFor (s : Store) (loanId : ℕ) : List ℚ :=
  (s.payments.filter (fun p => p.loan_id = loanId)).map Payment.amount

/-- `SELECT COALESCE(SUM(amount),0) FROM payments WHERE loan_id = ?`. -/
def paidFor (s : Store) (loanId : ℕ) : ℚ := (amountsFor s loanId).sum

/-- `SELECT * FROM loans WHERE loan_id = ?` (first matching row). -/
def findLoan (s : Store) (loanId : ℕ) : Option Loan :=
  s.loans.find? (fun l => l.loan_id = loanId)

/-- `totalsForLoan` from `app.js`: `none` models the thrown 404. -/
def totalsForLoan (s : Store) (loanId : ℕ) : Option (Loan × Totals) :=
  (findLoan s loanId).map fun l =>
    (l, totalsFigures l.total_amount l.monthly_emi (amountsFor s loanId))

/-- `upsertCustomer` from `app.js`: insert a bare customer row if absent. -/
def upsertCustomer (s : Store) (customer_id : ℕ) : Store :=
  if customer_id ∈ s.customers then s
  else { s with customers := s.customers ++ [customer_id] }

/-- The error taxonomy of the spec (HTTP codes 400/404/409 in the source). -/
inductive Err where
  | InvalidTerms
  | LoanNotFound
  | InvalidAmount
  | InvalidPaymentType
  | LoanAlreadySettled
  | NoLoansForCustomer
deriving DecidableEq, Repr

/-- Response body of `POST /api/v1/loans`. -/
structure LoanResp where
  loan_id : ℕ
  customer_id : ℕ
  principal : ℚ
  total_interest : ℚ
  total_amount_payable : ℚ
  monthly_emi : ℚ
deriving DecidableEq, Repr

/-- `POST /api/v1/loans` (`app.js` lines 85–124).  Inputs arrive typed
(`P : ℚ`, `N : ℕ` term in years, `R : ℚ` annual percent); the JSON
null-presence check of line 89 is outside the model.  Validation
(line 92) rejects `P ≤ 0`, `N ≤ 0`, `R < 0`.  On success the customer is
upserted and the loan row is inserted with the raw principal, the rounded
total `round2(A)`, `emi = round2(A / (N·12))`, and status `ACTIVE`. -/
def createLoan (s : Store) (loan_id customer_id : ℕ) (P : ℚ) (N : ℕ) (R : ℚ)
    (now : ℕ) : Except Err (Store × LoanResp) :=
  if P ≤ 0 ∨ N = 0 ∨ R < 0 then .error .InvalidTerms
  else
    let s1 := upsertCustomer s customer_id
    let IA := computeSI P N R
    let emi := round2 (IA.2 / (N * 12))
    let loan : Loan :=
      { loan_id := loan_id, customer_id := customer_id, principal_amount := P,
        interest_rate := R, loan_period_years := N,
        total_amount := round2 IA.2, monthly_emi := emi,
        status := .ACTIVE, created_at := now }
    .ok ({ s1 with loans := s1.loans ++ [loan] },
      { loan_id := loan_id, customer_id := customer_id, principal := round2 P,
        total_interest := round2 IA.1, total_amount_payable := round2 IA.2,
        monthly_emi := emi })

/-- `UPDATE loans SET status='PAID_OFF' WHERE loan_id = ?`. -/
def markPaidOff (s : Store) (loanId : ℕ) : Store :=
  { s with loans := s.loans.map fun l =>
      if l.loan_id = loanId then { l with status := .PAID_OFF } else l }

/-- Response body of `POST /api/v1/loans/:loanId/payments`. -/
structure PayResp where
  payment_id : ℕ
  loan_id : ℕ
  remaining_balance : ℚ
  emis_left : WithTop ℤ
deriving DecidableEq, Repr

/-- `POST /api/v1/loans/:loanId/payments` (`app.js` lines 127–163), checks in
source order: loan lookup (404), `amount <= 0` (400), payment type not in
`{EMI, LUMP_SUM}` (400), status already `PAID_OFF` (409).  On success the
payment row is inserted with amount `round2(amount)` and the next rowid,
totals are recomputed over the new state, and the loan is flipped to
`PAID_OFF` when the recomputed balance is `≤ 0`. -/
def recordPayment (s : Store) (payment_id loanId : ℕ) (amount : ℚ)
    (ptype : String) (now : ℕ) : Except Err (Store × PayResp) :=
  match findLoan s loanId with
  | none => .error .LoanNotFound
  | some loan =>
    if amount ≤ 0 then .error .InvalidAmount
    else if ¬ (ptype = "EMI" ∨ ptype = "LUMP_SUM") then .error .InvalidPaymentType
    else if loan.status = .PAID_OFF then .error .LoanAlreadySettled
    else
      let p : Payment :=
        { payment_id := payment_id, loan_id := loanId,
          amount := round2 amount, payment_type := ptype,
          payment_date := now, rowid := s.nextRowid }
      let s1 : Store :=
        { s with payments := s.payments ++ [p], nextRowid := s.nextRowid + 1 }
      let fig := totalsFigures loan.total_amount loan.monthly_emi (amountsFor s1 loanId)
      let s2 := if fig.balance ≤ 0 ∧ loan.status ≠ .PAID_OFF
                then markPaidOff s1 loanId else s1
      .ok (s2, { payment_id := payment_id, loan_id := loanId,
                 remaining_balance := fig.balance, emis_left := fig.emisLeft })

/-- The ledger query's ordering relation:
`ORDER BY datetime(payment_date) ASC, rowid ASC`. -/
def txnLE (a b : Payment) : Prop :=
  a.payment_date < b.payment_date ∨
    (a.payment_date = b.payment_date ∧ a.rowid ≤ b.rowid)

instance : DecidableRel txnLE := fun a b => by unfold txnLE; infer_instance

instance : IsTotal Payment txnLE where
  total a b := by
    unfold txnLE
    rcases Nat.lt_trichotomy a.payment_date b.payment_date with h | h | h
    · exact Or.inl (Or.inl h)
    · rcases Nat.le_total a.rowid b.rowid with h2 | h2
      · exact Or.inl (Or.inr ⟨h, h2⟩)
      · exact Or.inr (Or.inr ⟨h.symm, h2⟩)
    · exact Or.inr (Or.inl h)

instance : IsTrans Payment txnLE where
  trans a b c hab hbc := by
    unfold txnLE at *
    rcases hab with h1 | ⟨e1, r1⟩
    · rcases hbc with h2 | ⟨e2, _⟩
      · exact Or.inl (h1.trans h2)
      · exact Or.inl (e2 ▸ h1)
    · rcases hbc with h2 | ⟨e2, r2⟩
      · exact Or.inl (e1 ▸ h2)
      · exact Or.inr ⟨e1.trans e2, r1.trans r2⟩

/-- The strict version of `txnLE`: strictly earlier date, or same date and
strictly smaller insertion sequence number. -/
def txnLT (a b : Payment) : Prop :=
  a.payment_date < b.payment_date ∨
    (a.payment_date = b.payment_date ∧ a.rowid < b.rowid)

/-- Response body of `GET /api/v1/loans/:loanId/ledger`.  The source projects
each payment row to `(transaction_id, date, amount, type)`; we keep the full
rows, the projection being injective on them. -/
structure LedgerResp where
  loan_id : ℕ
  customer_id : ℕ
  principal : ℚ
  total_amount : ℚ
  monthly_emi : ℚ
  amount_paid : ℚ
  balance_amount : ℚ
  emis_left : WithTop ℤ
  status : Status
  transactions : List Payment
deriving DecidableEq, Repr

/-- `GET /api/v1/loans/:loanId/ledger` (`app.js` lines 166–193): derived
totals plus the loan's payments sorted by
`datetime(payment_date) ASC, rowid ASC`.  Since `txnLE` is a total order on
rows with distinct rowids, any correct sorting algorithm yields the same
list the SQL query does; we use insertion sort. -/
def getLedger (s : Store) (loanId : ℕ) : Except Err LedgerResp :=
  match totalsForLoan s loanId with
  | none => .error .LoanNotFound
  | some (loan, fig) =>
    .ok { loan_id := loan.loan_id, customer_id := loan.customer_id,
          principal := round2 loan.principal_amount,
          total_amount := round2 loan.total_amount,
          monthly_emi := round2 loan.monthly_emi,
          amount_paid := fig.paid, balance_amount := fig.balance,
          emis_left := fig.emisLeft, status := loan.status,
          transactions :=
            List.insertionSort txnLE
              (s.payments.filter (fun p => p.loan_id = loanId)) }

/-- The overview query's ordering relation:
`ORDER BY datetime(created_at) DESC`. -/
def createdDesc (a b : Loan) : Prop := b.created_at ≤ a.created_at

instance : DecidableRel createdDesc := fun a b => by unfold createdDesc; infer_instance

instance : IsTotal Loan createdDesc := ⟨fun a b => (Nat.le_total b.created_at a.created_at).imp id id⟩

instance : IsTrans Loan createdDesc := ⟨fun _ _ _ hab hbc => Nat.le_trans hbc hab⟩

/-- One per-loan summary of the customer overview (`app.js` lines 202–218). -/
structure OverviewEntry where
  loan_id : ℕ
  principal : ℚ
  total_amount : ℚ
  total_interest : ℚ
  emi_amount : ℚ
  amount_paid : ℚ
  emis_left : WithTop ℤ
  status : Status
  created_at : ℕ
deriving DecidableEq, Repr

/-- The body of the `loans.map` callback in the overview handler: the paid
sum, balance and EMIs left are recomputed inline from the loan's payment
rows (`app.js` lines 203–205), duplicating the `totalsForLoan` arithmetic. -/
def overviewEntry (s : Store) (ln : Loan) : OverviewEntry :=
  let paid := paidFor s ln.loan_id
  let balance := max 0 (round2 (ln.total_amount - paid))
  let emisLeft := emisLeftOf balance ln.monthly_emi
  { loan_id := ln.loan_id, principal := round2 ln.principal_amount,
    total_amount := round2 ln.total_amount,
    total_interest := round2 (ln.total_amount - ln.principal_amount),
    emi_amount := round2 ln.monthly_emi, amount_paid := round2 paid,
    emis_left := emisLeft, status := ln.status, created_at := ln.created_at }

/-- Response body of `GET /api/v1/customers/:customerId/overview`. -/
structure OverviewResp where
  customer_id : ℕ
  total_loans : ℕ
  loans : List OverviewEntry
deriving DecidableEq, Repr

/-- `GET /api/v1/customers/:customerId/overview` (`app.js` lines 196–229):
the customer's loans ordered by `datetime(created_at) DESC`, 404 when there
are none, otherwise one recomputed summary per loan. -/
def getCustomerOverview (s : Store) (customerId : ℕ) : Except Err OverviewResp :=
  let lns := List.insertionSort createdDesc
    (s.loans.filter (fun l => l.customer_id = customerId))
  if lns.length = 0 then .error .NoLoansForCustomer
  else .ok { customer_id := customerId, total_loans := lns.length,
             loans := lns.map (overviewEntry s) }

/-- The store-mutating requests (reads return no store and mutate nothing). -/
inductive Op where
  | create (loan_id customer_id : ℕ) (P : ℚ) (N : ℕ) (R : ℚ) (now : ℕ)
  | pay (payment_id loanId : ℕ) (amount : ℚ) (ptype : String) (now : ℕ)

/-- The store an operation leaves behind: the new store on success, the old
store untouched when the handler replies with an error. -/
def applyOp (s : Store) : Op → Store
  | .create lid cid P N R now =>
    match createLoan s lid cid P N R now with
    | .ok (s1, _) => s1
    | .error _ => s
  | .pay pid lid amount ptype now =>
    match recordPayment s pid lid amount ptype now with
    | .ok (s1, _) => s1
    | .error _ => s

/-- Environment guarantees the database supplies: a freshly generated loan
uuid never collides with an existing loan's primary key. -/
def opFresh (s : Store) : Op → Prop
  | .create lid _ _ _ _ _ => ∀ l ∈ s.loans, l.loan_id ≠ lid
  | .pay _ _ _ _ _ => True

/-- One request-processing step of the service. -/
def Step (s s1 : Store) : Prop := ∃ op, opFresh s op ∧ s1 = applyOp s op

/-- The store states the service can reach from the empty database. -/
def Reachable (s : Store) : Prop := Relation.ReflTransGen Step initStore s

/-- A rational representable with two decimal places — the form every stored
monetary value has (`round2` is applied at every write). -/
def IsMul100 (q : ℚ) : Prop := ∃ k : ℤ, q = k / 100

theorem isMul100_round2 (q : ℚ) : IsMul100 (round2 q) := ⟨_, rfl⟩

theorem isMul100_zero : IsMul100 0 := ⟨0, by norm_num⟩

theorem IsMul100.add {a b : ℚ} (ha : IsMul100 a) (hb : IsMul100 b) :
    IsMul100 (a + b) := by
  obtain ⟨k, rfl⟩ := ha
  obtain ⟨m, rfl⟩ := hb
  exact ⟨k + m, by push_cast; ring⟩

theorem IsMul100.sub {a b : ℚ} (ha : IsMul100 a) (hb : IsMul100 b) :
    IsMul100 (a - b) := by
  obtain ⟨k, rfl⟩ := ha
  obtain ⟨m, rfl⟩ := hb
  exact ⟨k - m, by push_cast; ring⟩

theorem isMul100_sum {l : List ℚ} (h : ∀ a ∈ l, IsMul100 a) :
    IsMul100 l.sum := by
  induction l with
  | nil => simpa using isMul100_zero
  | cons a l ih =>
    simp only [List.sum_cons]
    exact (h a (by simp)).add (ih fun b hb => h b (by simp [hb]))

/-- `round2` is the identity on two-decimal values. -/
theorem round2_eq_self {q : ℚ} (h : IsMul100 q) : round2 q = q := by
  obtain ⟨k, rfl⟩ := h
  unfold round2
  have h100 : (k : ℚ) / 100 * 100 = (k : ℚ) := by field_simp
  rw [h100]
  have : ⌊(k : ℚ) + 1 / 2⌋ = k := by
    rw [Int.floor_int_add]
    norm_num
  rw [this]

/-- `round2` of a nonnegative value is nonnegative. -/
theorem round2_nonneg {q : ℚ} (h : 0 ≤ q) : 0 ≤ round2 q := by
  unfold round2
  have : (0 : ℤ) ≤ ⌊q * 100 + 1/2⌋ := by
    apply Int.le_floor.2
    push_cast
    nlinarith
  apply div_nonneg _ (by norm_num : (0:ℚ) ≤ 100)
  exact_mod_cast this

theorem upsertCustomer_loans (s : Store) (cid : ℕ) :
    (upsertCustomer s cid).loans = s.loans := by
  unfold upsertCustomer; split <;> rfl

theorem upsertCustomer_payments (s : Store) (cid : ℕ) :
    (upsertCustomer s cid).payments = s.payments := by
  unfold upsertCustomer; split <;> rfl

theorem upsertCustomer_nextRowid (s : Store) (cid : ℕ) :
    (upsertCustomer s cid).nextRowid = s.nextRowid := by
  unfold upsertCustomer; split <;> rfl

theorem findLoan_mem {s : Store} {lid : ℕ} {l : Loan}
    (h : findLoan s lid = some l) : l ∈ s.loans ∧ l.loan_id = lid := by
  unfold findLoan at h
  refine ⟨List.mem_of_find?_eq_some h, ?_⟩
  have := List.find?_some h
  simpa using this

/-- Inverting a successful `createLoan`: the inputs passed validation and the
new store is the old one with the customer upserted and the new loan row
appended. -/
theorem createLoan_ok_elim {s : Store} {lid cid : ℕ} {P : ℚ} {N : ℕ} {R : ℚ}
    {now : ℕ} {s1 : Store} {r : LoanResp}
    (h : createLoan s lid cid P N R now = .ok (s1, r)) :
    ¬ (P ≤ 0 ∨ N = 0 ∨ R < 0) ∧
      s1 = { upsertCustomer s cid with
             loans := (upsertCustomer s cid).loans ++
               [{ loan_id := lid, customer_id := cid, principal_amount := P,
                  interest_rate := R, loan_period_years := N,
                  total_amount := round2 (computeSI P N R).2,
                  monthly_emi := round2 ((computeSI P N R).2 / (N * 12)),
                  status := .ACTIVE, created_at := now }] } ∧
      r = { loan_id := lid, customer_id := cid, principal := round2 P,
            total_interest := round2 (computeSI P N R).1,
            total_amount_payable := round2 (computeSI P N R).2,
            monthly_emi := round2 ((computeSI P N R).2 / (N * 12)) } := by
  unfold createLoan at h
  split at h
  · exact absurd h (by simp)
  · simp only [Except.ok.injEq, Prod.mk.injEq] at h
    exact ⟨by assumption, h.1.symm, h.2.symm⟩

/-- Inverting a successful `recordPayment`: the loan was found, all guards
passed, and the new store is the appended-payment store, with the loan
marked `PAID_OFF` exactly when the recomputed balance is `≤ 0`. -/
theorem recordPayment_ok_elim {s : Store} {pid lid : ℕ} {amount : ℚ}
    {ptype : String} {now : ℕ} {s2 : Store} {r : PayResp}
    (h : recordPayment s pid lid amount ptype now = .ok (s2, r)) :
    ∃ loan, findLoan s lid = some loan ∧ ¬ amount ≤ 0 ∧
      (ptype = "EMI" ∨ ptype = "LUMP_SUM") ∧ loan.status ≠ .PAID_OFF ∧
      (∀ s1 : Store, s1 = { s with
          payments := s.payments ++
            [{ payment_id := pid, loan_id := lid, amount := round2 amount,
               payment_type := ptype, payment_date := now,
               rowid := s.nextRowid }],
          nextRowid := s.nextRowid + 1 } →
        ∀ fig : Totals,
          fig = totalsFigures loan.total_amount loan.monthly_emi (amountsFor s1 lid) →
          s2 = (if fig.balance ≤ 0 ∧ loan.status ≠ .PAID_OFF
                then markPaidOff s1 lid else s1) ∧
          r = { payment_id := pid, loan_id := lid,
                remaining_balance := fig.balance, emis_left := fig.emisLeft }) := by
  unfold recordPayment at h
  cases hf : findLoan s lid with
  | none => rw [hf] at h; exact absurd h (by simp)
  | some loan =>
    rw [hf] at h
    dsimp only at h
    by_cases h1 : amount ≤ 0
    · rw [if_pos h1] at h; exact absurd h (by simp)
    rw [if_neg h1] at h
    by_cases h2 : ¬ (ptype = "EMI" ∨ ptype = "LUMP_SUM")
    · rw [if_pos h2] at h; exact absurd h (by simp)
    rw [if_neg h2] at h
    by_cases h3 : loan.status = .PAID_OFF
    · rw [if_pos h3] at h; exact absurd h (by simp)
    rw [if_neg h3] at h
    simp only [Except.ok.injEq, Prod.mk.injEq] at h
    refine ⟨loan, rfl, h1, not_not.mp h2, h3, ?_⟩
    rintro s1 rfl fig rfl
    exact ⟨h.1.symm, h.2.symm⟩

theorem amountsFor_payments_eq {s t : Store} (h : s.payments = t.payments)
    (x : ℕ) : amountsFor s x = amountsFor t x := by
  unfold amountsFor; rw [h]

theorem paidFor_payments_eq {s t : Store} (h : s.payments = t.payments)
    (x : ℕ) : paidFor s x = paidFor t x := by
  unfold paidFor; rw [amountsFor_payments_eq h]

theorem amountsFor_append (s : Store) (p : Payment) (n x : ℕ) :
    amountsFor { s with payments := s.payments ++ [p], nextRowid := n } x
      = amountsFor s x ++ (if p.loan_id = x then [p.amount] else []) := by
  unfold amountsFor
  simp only [List.filter_append, List.map_append]
  congr 1
  by_cases hp : p.loan_id = x <;> simp [hp]

theorem paidFor_append (s : Store) (p : Payment) (n x : ℕ) :
    paidFor { s with payments := s.payments ++ [p], nextRowid := n } x
      = paidFor s x + (if p.loan_id = x then p.amount else 0) := by
  unfold paidFor
  rw [amountsFor_append, List.sum_append]
  by_cases hp : p.loan_id = x <;> simp [hp]

theorem markPaidOff_payments (s : Store) (lid : ℕ) :
    (markPaidOff s lid).payments = s.payments := rfl

theorem amountsFor_markPaidOff (s : Store) (lid x : ℕ) :
    amountsFor (markPaidOff s lid) x = amountsFor s x := rfl

theorem paidFor_markPaidOff (s : Store) (lid x : ℕ) :
    paidFor (markPaidOff s lid) x = paidFor s x := rfl

theorem markPaidOff_map_loan_id (s : Store) (lid : ℕ) :
    (markPaidOff s lid).loans.map Loan.loan_id = s.loans.map Loan.loan_id := by
  unfold markPaidOff
  simp only [List.map_map]
  apply List.map_congr_left
  intro l _
  by_cases hl : l.loan_id = lid <;> simp [hl]

theorem mem_markPaidOff {s : Store} {lid : ℕ} {l1 : Loan} :
    l1 ∈ (markPaidOff s lid).loans ↔
      ∃ l ∈ s.loans,
        l1 = if l.loan_id = lid then { l with status := .PAID_OFF } else l := by
  unfold markPaidOff
  simp only [List.mem_map]
  constructor
  · rintro ⟨l, hl, rfl⟩; exact ⟨l, hl, rfl⟩
  · rintro ⟨l, hl, rfl⟩; exact ⟨l, hl, rfl⟩

/-- The store invariants the service maintains: every stored monetary value
is an exact two-decimal value, stored payment amounts are nonnegative,
rowids increase with insertion, loan primary keys are unique, payments
reference existing loans, and a loan is `PAID_OFF` exactly when it has at
least one payment row and its payment sum has reached its stored total. -/
structure StoreInv (s : Store) : Prop where
  pay_mul : ∀ p ∈ s.payments, IsMul100 p.amount
  pay_nonneg : ∀ p ∈ s.payments, 0 ≤ p.amount
  loan_mul : ∀ l ∈ s.loans, IsMul100 l.total_amount
  rowid_lt : ∀ p ∈ s.payments, p.rowid < s.nextRowid
  rowid_mono : s.payments.Pairwise (fun a b => a.rowid < b.rowid)
  ids_nodup : (s.loans.map Loan.loan_id).Nodup
  pay_has_loan : ∀ p ∈ s.payments, ∃ l ∈ s.loans, l.loan_id = p.loan_id
  statusInv : ∀ l ∈ s.loans,
    (l.status = .PAID_OFF ↔
      (amountsFor s l.loan_id ≠ [] ∧ l.total_amount ≤ paidFor s l.loan_id))

theorem inv_init : StoreInv initStore := by
  constructor <;> simp [initStore]

theorem totalsFigures_balance_eq {total : ℚ} {amounts : List ℚ} (emi : ℚ)
    (htot : IsMul100 total) (hamts : ∀ a ∈ amounts, IsMul100 a) :
    (totalsFigures total emi amounts).balance = max 0 (total - amounts.sum) := by
  unfold totalsFigures
  dsimp only
  rw [round2_eq_self (htot.sub (isMul100_sum hamts))]

theorem totalsFigures_balance_le_zero {total : ℚ} {amounts : List ℚ} (emi : ℚ)
    (htot : IsMul100 total) (hamts : ∀ a ∈ amounts, IsMul100 a) :
    ((totalsFigures total emi amounts).balance ≤ 0 ↔ total ≤ amounts.sum) := by
  rw [totalsFigures_balance_eq emi htot hamts, max_le_iff]
  simp [sub_nonpos]

theorem inv_createLoan {s : Store} {lid cid : ℕ} {P : ℚ} {N : ℕ} {R : ℚ}
    {now : ℕ} {s1 : Store} {r : LoanResp} (hs : StoreInv s)
    (hfresh : ∀ l ∈ s.loans, l.loan_id ≠ lid)
    (h : createLoan s lid cid P N R now = .ok (s1, r)) : StoreInv s1 := by
  obtain ⟨-, hs1, -⟩ := createLoan_ok_elim h
  have hloans : s1.loans = s.loans ++
      [{ loan_id := lid, customer_id := cid, principal_amount := P,
         interest_rate := R, loan_period_years := N,
         total_amount := round2 (computeSI P N R).2,
         monthly_emi := round2 ((computeSI P N R).2 / (N * 12)),
         status := .ACTIVE, created_at := now }] := by
    rw [hs1]; exact congrArg (· ++ _) (upsertCustomer_loans s cid)
  have hpay : s1.payments = s.payments := by
    rw [hs1]; exact upsertCustomer_payments s cid
  have hnext : s1.nextRowid = s.nextRowid := by
    rw [hs1]; exact upsertCustomer_nextRowid s cid
  have hamts : ∀ x, amountsFor s1 x = amountsFor s x :=
    amountsFor_payments_eq hpay
  have hpaid : ∀ x, paidFor s1 x = paidFor s x := paidFor_payments_eq hpay
  have hnil : amountsFor s lid = [] := by
    unfold amountsFor
    rw [List.filter_eq_nil_iff.mpr, List.map_nil]
    intro p hp
    obtain ⟨l, hl, hidl⟩ := hs.pay_has_loan p hp
    simpa [hidl] using hfresh l hl
  constructor
  · rw [hpay]; exact hs.pay_mul
  · rw [hpay]; exact hs.pay_nonneg
  · rw [hloans]
    intro l hl
    rcases List.mem_append.mp hl with hl | hl
    · exact hs.loan_mul l hl
    · simp only [List.mem_singleton] at hl
      subst hl
      exact isMul100_round2 _
  · rw [hpay, hnext]; exact hs.rowid_lt
  · rw [hpay]; exact hs.rowid_mono
  · rw [hloans, List.map_append]
    refine List.nodup_append.mpr ⟨hs.ids_nodup, by simp, ?_⟩
    intro x hx
    simp only [List.mem_map] at hx
    obtain ⟨l, hl, rfl⟩ := hx
    simpa using fun hmem => hfresh l hl (by simpa using hmem)
  · rw [hpay, hloans]
    intro p hp
    obtain ⟨l, hl, hidl⟩ := hs.pay_has_loan p hp
    exact ⟨l, List.mem_append.mpr (Or.inl hl), hidl⟩
  · rw [hloans]
    intro l hl
    rcases List.mem_append.mp hl with hl | hl
    · rw [hamts, hpaid]; exact hs.statusInv l hl
    · simp only [List.mem_singleton] at hl
      subst hl
      rw [hamts, hpaid]
      simp only [hnil]
      simp

theorem mem_amountsFor {s : Store} {x : ℕ} {a : ℚ} (ha : a ∈ amountsFor s x) :
    ∃ p ∈ s.payments, p.amount = a := by
  unfold amountsFor at ha
  simp only [List.mem_map, List.mem_filter] at ha
  obtain ⟨p, ⟨hp, -⟩, rfl⟩ := ha
  exact ⟨p, hp, rfl⟩

theorem amountsFor_mul100 {s : Store} (hs : StoreInv s) (x : ℕ) :
    ∀ a ∈ amountsFor s x, IsMul100 a := by
  intro a ha
  obtain ⟨p, hp, rfl⟩ := mem_amountsFor ha
  exact hs.pay_mul p hp

theorem inv_recordPayment {s : Store} {pid lid : ℕ} {amount : ℚ}
    {ptype : String} {now : ℕ} {s2 : Store} {r : PayResp} (hs : StoreInv s)
    (h : recordPayment s pid lid amount ptype now = .ok (s2, r)) :
    StoreInv s2 := by
  obtain ⟨loan, hf, h1, h2, h3, hkey⟩ := recordPayment_ok_elim h
  obtain ⟨hloanmem, hloanid⟩ := findLoan_mem hf
  set pnew : Payment :=
    { payment_id := pid, loan_id := lid, amount := round2 amount,
      payment_type := ptype, payment_date := now, rowid := s.nextRowid }
    with hpnew
  set s1 : Store :=
    { s with payments := s.payments ++ [pnew], nextRowid := s.nextRowid + 1 }
    with hs1def
  obtain ⟨hs2, -⟩ := hkey s1 rfl _ rfl
  have hamts1 : amountsFor s1 lid = amountsFor s lid ++ [round2 amount] := by
    rw [hs1def, amountsFor_append]
    simp [hpnew]
  have hamts1' : ∀ x, x ≠ lid → amountsFor s1 x = amountsFor s x := by
    intro x hx
    rw [hs1def, amountsFor_append]
    simp only [hpnew]
    rw [if_neg fun hh => hx hh.symm, List.append_nil]
  have hpaid1 : paidFor s1 lid = paidFor s lid + round2 amount := by
    unfold paidFor
    rw [hamts1, List.sum_append]
    simp
  have hpaid1' : ∀ x, x ≠ lid → paidFor s1 x = paidFor s x := by
    intro x hx
    unfold paidFor
    rw [hamts1' x hx]
  have hmulamts : ∀ a ∈ amountsFor s1 lid, IsMul100 a := by
    rw [hamts1]
    intro a ha
    rcases List.mem_append.mp ha with ha | ha
    · exact amountsFor_mul100 hs lid a ha
    · simp only [List.mem_singleton] at ha
      subst ha
      exact isMul100_round2 _
  have hbal : (totalsFigures loan.total_amount loan.monthly_emi
      (amountsFor s1 lid)).balance ≤ 0 ↔
      loan.total_amount ≤ paidFor s1 lid :=
    totalsFigures_balance_le_zero loan.monthly_emi
      (hs.loan_mul loan hloanmem) hmulamts
  have hs1loans : s1.loans = s.loans := rfl
  have hs1pay : s1.payments = s.payments ++ [pnew] := rfl
  -- the seven non-status invariant fields for the appended-payment store
  have hpm : ∀ p ∈ s1.payments, IsMul100 p.amount := by
    rw [hs1pay]
    intro p hp
    rcases List.mem_append.mp hp with hp | hp
    · exact hs.pay_mul p hp
    · simp only [List.mem_singleton] at hp
      subst hp
      exact isMul100_round2 _
  have hpn : ∀ p ∈ s1.payments, 0 ≤ p.amount := by
    rw [hs1pay]
    intro p hp
    rcases List.mem_append.mp hp with hp | hp
    · exact hs.pay_nonneg p hp
    · simp only [List.mem_singleton] at hp
      subst hp
      exact round2_nonneg (le_of_lt (lt_of_not_le h1))
  have hrl : ∀ p ∈ s1.payments, p.rowid < s1.nextRowid := by
    rw [hs1pay]
    intro p hp
    rcases List.mem_append.mp hp with hp | hp
    · exact lt_trans (hs.rowid_lt p hp) (Nat.lt_succ_self _)
    · simp only [List.mem_singleton] at hp
      subst hp
      exact Nat.lt_succ_self _
  have hrm : s1.payments.Pairwise (fun a b => a.rowid < b.rowid) := by
    rw [hs1pay]
    refine List.pairwise_append.mpr ⟨hs.rowid_mono, by simp, ?_⟩
    intro a ha b hb
    simp only [List.mem_singleton] at hb
    subst hb
    exact hs.rowid_lt a ha
  have hph : ∀ p ∈ s1.payments, ∃ l ∈ s.loans, l.loan_id = p.loan_id := by
    rw [hs1pay]
    intro p hp
    rcases List.mem_append.mp hp with hp | hp
    · exact hs.pay_has_loan p hp
    · simp only [List.mem_singleton] at hp
      subst hp
      exact ⟨loan, hloanmem, hloanid⟩
  by_cases hcond : (totalsFigures loan.total_amount loan.monthly_emi
      (amountsFor s1 lid)).balance ≤ 0
  · -- the payment settles the loan: it is flipped to PAID_OFF
    rw [if_pos ⟨hcond, h3⟩] at hs2
    subst hs2
    have hreach : loan.total_amount ≤ paidFor s1 lid := hbal.mp hcond
    constructor
    · rw [markPaidOff_payments]; exact hpm
    · rw [markPaidOff_payments]; exact hpn
    · intro l1 hl1
      obtain ⟨l, hl, rfl⟩ := mem_markPaidOff.mp hl1
      have : (if l.loan_id = lid then { l with status := Status.PAID_OFF }
          else l).total_amount = l.total_amount := by
        by_cases hid : l.loan_id = lid <;> simp [hid]
      rw [this]
      exact hs.loan_mul l (hs1loans ▸ hl)
    · rw [markPaidOff_payments]
      intro p hp
      exact hrl p hp
    · rw [markPaidOff_payments]; exact hrm
    · rw [markPaidOff_map_loan_id, hs1loans]; exact hs.ids_nodup
    · rw [markPaidOff_payments]
      intro p hp
      obtain ⟨l, hl, hidl⟩ := hph p hp
      refine ⟨if l.loan_id = lid then { l with status := Status.PAID_OFF }
        else l, ?_, ?_⟩
      · exact List.mem_map.mpr ⟨l, hs1loans ▸ hl, rfl⟩
      · by_cases hid : l.loan_id = lid
        · rw [if_pos hid]; exact hidl
        · rw [if_neg hid]; exact hidl
    · intro l1 hl1
      obtain ⟨l, hl, rfl⟩ := mem_markPaidOff.mp hl1
      rw [hs1loans] at hl
      by_cases hid : l.loan_id = lid
      · have hleq : l = loan :=
          List.inj_on_of_nodup_map hs.ids_nodup hl hloanmem
            (by rw [hid, hloanid])
        subst hleq
        rw [if_pos hid]
        rw [amountsFor_markPaidOff, paidFor_markPaidOff]
        refine iff_of_true rfl ⟨?_, ?_⟩
        · show amountsFor s1 l.loan_id ≠ []
          rw [hid, hamts1]
          simp
        · show l.total_amount ≤ paidFor s1 l.loan_id
          rw [hid]
          exact hreach
      · rw [if_neg hid, amountsFor_markPaidOff, paidFor_markPaidOff,
          hamts1' _ hid, hpaid1' _ hid]
        exact hs.statusInv l hl
  · -- balance still positive: the store is just the appended-payment store
    rw [if_neg (fun hc => hcond hc.1)] at hs2
    subst hs2
    refine ⟨hpm, hpn, ?_, hrl, hrm, ?_, ?_, ?_⟩
    · rw [hs1loans]; exact hs.loan_mul
    · rw [hs1loans]; exact hs.ids_nodup
    · intro p hp
      obtain ⟨l, hl, hidl⟩ := hph p hp
      exact ⟨l, hs1loans ▸ hl, hidl⟩
    · intro l hl
      rw [hs1loans] at hl
      by_cases hid : l.loan_id = lid
      · have hleq : l = loan :=
          List.inj_on_of_nodup_map hs.ids_nodup hl hloanmem
            (by rw [hid, hloanid])
        subst hleq
        rw [hid]
        refine iff_of_false ?_ ?_
        · exact fun hpo => h3 hpo
        · rintro ⟨-, hle⟩
          exact hcond (hbal.mpr hle)
      · rw [hamts1' _ hid, hpaid1' _ hid]
        exact hs.statusInv l hl

theorem inv_applyOp {s : Store} (hs : StoreInv s) (op : Op)
    (hfresh : opFresh s op) : StoreInv (applyOp s op) := by
  cases op with
  | create lid cid P N R now =>
    simp only [applyOp]
    cases hr : createLoan s lid cid P N R now with
    | ok v =>
      obtain ⟨t, resp⟩ := v
      exact inv_createLoan hs hfresh hr
    | error e => exact hs
  | pay pid lid amount ptype now =>
    simp only [applyOp]
    cases hr : recordPayment s pid lid amount ptype now with
    | ok v =>
      obtain ⟨t, resp⟩ := v
      exact inv_recordPayment hs hr
    | error e => exact hs

theorem inv_step {s s1 : Store} (hs : StoreInv s) (h : Step s s1) :
    StoreInv s1 := by
  obtain ⟨op, hfresh, rfl⟩ := h
  exact inv_applyOp hs op hfresh

theorem reachable_inv {s : Store} (h : Reachable s) : StoreInv s := by
  induction h with
  | refl => exact inv_init
  | tail _ hstep ih => exact inv_step ih hstep

/-! ## Concrete stores used by witnesses and counterexamples

`demoStore` follows the spec's worked scenario: one loan for customer 7
with principal 100000, one year, 10% — total 110000, EMI 9166.67.
`tinyPayStore` adds one payment submitted as 0.001 (stored rounded to 0).
`degenStore` holds a loan created with the accepted principal 0.001, whose
stored total and installment both round to 0.  `paidStore` holds an
already-settled loan. -/

def demoLoan : Loan :=
  { loan_id := 1, customer_id := 7, principal_amount := 100000,
    interest_rate := 10, loan_period_years := 1, total_amount := 110000,
    monthly_emi := 916667/100, status := .ACTIVE, created_at := 0 }

def demoStore : Store := ⟨[7], [demoLoan], [], 0⟩

def demoResp : LoanResp :=
  { loan_id := 1, customer_id := 7, principal := 100000,
    total_interest := 10000, total_amount_payable := 110000,
    monthly_emi := 916667/100 }

theorem createLoan_demo_eval :
    createLoan initStore 1 7 100000 1 10 0 = .ok (demoStore, demoResp) := by
  norm_num [createLoan, computeSI, upsertCustomer, round2, initStore,
    demoStore, demoLoan, demoResp]

theorem demoStore_reachable : Reachable demoStore :=
  Relation.ReflTransGen.single
    ⟨.create 1 7 100000 1 10 0, fun l hl => absurd hl (by simp [initStore]),
     by show demoStore = match createLoan initStore 1 7 100000 1 10 0 with
          | .ok (s1, _) => s1 | .error _ => initStore
        rw [createLoan_demo_eval]⟩

def tinyPayment : Payment :=
  { payment_id := 2, loan_id := 1, amount := 0, payment_type := "EMI",
    payment_date := 1, rowid := 0 }

def tinyPayStore : Store := ⟨[7], [demoLoan], [tinyPayment], 1⟩

def tinyResp : PayResp :=
  { payment_id := 2, loan_id := 1, remaining_balance := 110000,
    emis_left := ((12 : ℤ) : WithTop ℤ) }

theorem recordPayment_tiny_eval :
    recordPayment demoStore 2 1 (1/1000) "EMI" 1 = .ok (tinyPayStore, tinyResp) := by
  have hceil : (⌈(11000000 / 916667 : ℚ)⌉ : ℤ) = 12 := by
    norm_num [Int.ceil_eq_iff]
  have hne : (Status.ACTIVE = Status.PAID_OFF) = False := by simp
  norm_num [recordPayment, findLoan, demoStore, demoLoan, round2,
    amountsFor, totalsFigures, emisLeftOf, markPaidOff, tinyPayStore,
    tinyPayment, tinyResp, hne, hceil]

theorem tinyPayStore_reachable : Reachable tinyPayStore :=
  Relation.ReflTransGen.tail demoStore_reachable
    ⟨.pay 2 1 (1/1000) "EMI" 1, trivial,
     by show tinyPayStore = match recordPayment demoStore 2 1 (1/1000) "EMI" 1 with
          | .ok (s1, _) => s1 | .error _ => demoStore
        rw [recordPayment_tiny_eval]⟩

def degenLoan : Loan :=
  { loan_id := 1, customer_id := 7, principal_amount := 1/1000,
    interest_rate := 0, loan_period_years := 1, total_amount := 0,
    monthly_emi := 0, status := .ACTIVE, created_at := 0 }

def degenStore : Store := ⟨[7], [degenLoan], [], 0⟩

def degenResp : LoanResp :=
  { loan_id := 1, customer_id := 7, principal := 0, total_interest := 0,
    total_amount_payable := 0, monthly_emi := 0 }

theorem createLoan_degen_eval :
    createLoan initStore 1 7 (1/1000) 1 0 0 = .ok (degenStore, degenResp) := by
  norm_num [createLoan, computeSI, upsertCustomer, round2, initStore,
    degenStore, degenLoan, degenResp]

theorem degenStore_reachable : Reachable degenStore :=
  Relation.ReflTransGen.single
    ⟨.create 1 7 (1/1000) 1 0 0, fun l hl => absurd hl (by simp [initStore]),
     by show degenStore = match createLoan initStore 1 7 (1/1000) 1 0 0 with
          | .ok (s1, _) => s1 | .error _ => initStore
        rw [createLoan_degen_eval]⟩

/-- A store holding one already-settled loan and its payment. -/
def paidLoan : Loan :=
  { loan_id := 1, customer_id := 7, principal_amount := 100,
    interest_rate := 0, loan_period_years := 1, total_amount := 100,
    monthly_emi := 833/100, status := .PAID_OFF, created_at := 0 }

def paidStore : Store :=
  ⟨[7], [paidLoan],
   [{ payment_id := 2, loan_id := 1, amount := 100,
      payment_type := "LUMP_SUM", payment_date := 1, rowid := 0 }], 1⟩

/-! ## Claims -/

/-- C1: for every loan creation with principal `P > 0`, integer term
`N > 0` and rate `R ≥ 0`, origination returns
`interest = P·N·R/100`, `total_payable = P + interest` and
`installment_amount = round2(total_payable / (N·12))`, the interest and
total reported rounded to two decimals.  The response is determined by
`(P, N, R)` alone (the returned record does not depend on the store), so
identical inputs always yield identical outputs. -/
theorem C1_origination {s : Store} {lid cid : ℕ} {P : ℚ} {N : ℕ} {R : ℚ}
    {now : ℕ} (hP : 0 < P) (hN : 0 < N) (hR : 0 ≤ R) :
    ∃ s1 : Store, createLoan s lid cid P N R now = .ok (s1,
      { loan_id := lid, customer_id := cid, principal := round2 P,
        total_interest := round2 (P * N * R / 100),
        total_amount_payable := round2 (P + P * N * R / 100),
        monthly_emi := round2 ((P + P * N * R / 100) / (N * 12)) }) := by
  have hcsi : computeSI P N R = (P * N * R / 100, P + P * N * R / 100) := by
    unfold computeSI
    rw [Prod.mk.injEq]
    constructor <;> ring
  refine ⟨{ upsertCustomer s cid with
    loans := (upsertCustomer s cid).loans ++
      [{ loan_id := lid, customer_id := cid, principal_amount := P,
         interest_rate := R, loan_period_years := N,
         total_amount := round2 (P + P * N * R / 100),
         monthly_emi := round2 ((P + P * N * R / 100) / (N * 12)),
         status := .ACTIVE, created_at := now }] }, ?_⟩
  unfold createLoan
  rw [if_neg (by
    push_neg
    exact ⟨hP, Nat.pos_iff_ne_zero.mp hN, hR⟩), hcsi]

/-- C1 witness: the spec's worked scenario, principal 100000, one year,
10%: interest 10000, total 110000, EMI 9166.67. -/
theorem C1_witness :
    (0:ℚ) < 100000 ∧ 0 < 1 ∧ (0:ℚ) ≤ 10 ∧
    ∃ s1 : Store, createLoan initStore 1 7 100000 1 10 0 = .ok (s1,
      { loan_id := 1, customer_id := 7, principal := round2 100000,
        total_interest := round2 (100000 * ((1:ℕ):ℚ) * 10 / 100),
        total_amount_payable := round2 (100000 + 100000 * ((1:ℕ):ℚ) * 10 / 100),
        monthly_emi :=
          round2 ((100000 + 100000 * ((1:ℕ):ℚ) * 10 / 100) / (((1:ℕ):ℚ) * 12)) }) :=
  ⟨by norm_num, by norm_num, by norm_num,
    C1_origination (by norm_num) (by norm_num) (by norm_num)⟩

/-- C3 counterexample: at the concrete positive balance 0.01 with stored
installment 0, the remaining-installment computation of `totalsForLoan`
performs the division by zero and yields the non-finite JavaScript value
`Infinity` (modelled `⊤`), refuting the claim that a positive balance with
a zero installment produces an error or sentinel and never an infinite
result. -/
theorem C3_counterexample : (0:ℚ) < 1/100 ∧ emisLeftOf (1/100) 0 = ⊤ := by
  constructor
  · norm_num
  · unfold emisLeftOf
    norm_num

/-- C3 (amended): when balance is already 0 the remaining-installment count
is 0 regardless of the installment amount; when balance is positive and the
stored installment is zero there is no guard — the code divides by zero and
the result is the non-finite JavaScript value `Infinity` (modelled `⊤`),
not an error or sentinel. -/
theorem C3_zero_emi_behavior :
    (∀ e : ℚ, emisLeftOf 0 e = ((0:ℤ) : WithTop ℤ)) ∧
    (∀ b : ℚ, 0 < b → emisLeftOf b 0 = ⊤) := by
  constructor
  · intro e
    unfold emisLeftOf
    rw [if_pos le_rfl]
  · intro b hb
    unfold emisLeftOf
    rw [if_neg (not_le.mpr hb), if_pos rfl]

/-- C3 witness: both branches of the amended claim at concrete inputs. -/
theorem C3_witness :
    emisLeftOf 0 5 = ((0:ℤ) : WithTop ℤ) ∧ (0:ℚ) < 2 ∧ emisLeftOf 2 0 = ⊤ :=
  ⟨C3_zero_emi_behavior.1 5, by norm_num, C3_zero_emi_behavior.2 2 (by norm_num)⟩

/-- C9: the derived figures of `totalsForLoan` are invariant under any
permutation of the payment-amount sequence — `amount_paid` is a pure sum of
the amounts, insensitive to insertion order, and the entire derivation
depends on the payments only through that sum. -/
theorem C9_perm_invariant {total emi : ℚ} {l1 l2 : List ℚ}
    (hp : l1.Perm l2) :
    totalsFigures total emi l1 = totalsFigures total emi l2 := by
  unfold totalsFigures
  rw [hp.sum_eq]

/-- C9 witness: swapping two concrete payments leaves the figures equal. -/
theorem C9_witness :
    ([1, 2] : List ℚ).Perm [2, 1] ∧
    totalsFigures 100 10 [1, 2] = totalsFigures 100 10 [2, 1] :=
  ⟨List.Perm.swap 2 1 [], C9_perm_invariant (List.Perm.swap 2 1 [])⟩

/-- C4: recording a payment (positive amount, valid type) on a loan whose
status is `PAID_OFF` fails with `LoanAlreadySettled` (HTTP 409), inserts no
payment row, and leaves the store — payment history and loan included —
unchanged. -/
theorem C4_settled_rejected {s : Store} (pid lid : ℕ) (amount : ℚ)
    (ptype : String) (now : ℕ) {l : Loan}
    (hf : findLoan s lid = some l) (hpo : l.status = .PAID_OFF)
    (hamt : 0 < amount) (hty : ptype = "EMI" ∨ ptype = "LUMP_SUM") :
    recordPayment s pid lid amount ptype now = .error .LoanAlreadySettled ∧
    applyOp s (.pay pid lid amount ptype now) = s := by
  have herr : recordPayment s pid lid amount ptype now
      = .error .LoanAlreadySettled := by
    unfold recordPayment
    rw [hf]
    dsimp only
    rw [if_neg (not_le.mpr hamt), if_neg (not_not_intro hty), if_pos hpo]
  refine ⟨herr, ?_⟩
  show (match recordPayment s pid lid amount ptype now with
    | .ok (s1, _) => s1 | .error _ => s) = s
  rw [herr]

/-- C4 witness: a valid payment of 50 against the settled loan of
`paidStore` is rejected and the store is untouched. -/
theorem C4_witness :
    findLoan paidStore 1 = some paidLoan ∧ paidLoan.status = .PAID_OFF ∧
    (0:ℚ) < 50 ∧ ("EMI" = "EMI" ∨ "EMI" = "LUMP_SUM") ∧
    recordPayment paidStore 3 1 50 "EMI" 2 = .error .LoanAlreadySettled ∧
    applyOp paidStore (.pay 3 1 50 "EMI" 2) = paidStore := by
  have hfind : findLoan paidStore 1 = some paidLoan := by
    simp [findLoan, paidStore, paidLoan]
  obtain ⟨h1, h2⟩ :=
    C4_settled_rejected 3 1 50 "EMI" 2 hfind rfl (by norm_num) (Or.inl rfl)
  exact ⟨hfind, rfl, by norm_num, Or.inl rfl, h1, h2⟩

theorem totalsFigures_emisLeft (total emi : ℚ) (amounts : List ℚ) :
    (totalsFigures total emi amounts).emisLeft =
      emisLeftOf (totalsFigures total emi amounts).balance emi := rfl

/-- C2: in every reachable store, the figures `totalsForLoan` derives for a
loan satisfy the spec's equations: `amount_paid` is the rounded payment
sum, `balance = max(0, round2(total_payable − amount_paid))` with
`amount_paid` the rounded sum, `installments_remaining` is 0 when the
balance is ≤ 0 and `⌈balance / installment_amount⌉` otherwise (for a
nonzero installment — the zero case is claim C3), and the loan is satisfied
(payment sum has reached the stored total) exactly when the balance
is ≤ 0. -/
theorem C2_derived_figures {s : Store} {lid : ℕ} {l : Loan} {fig : Totals}
    (hreach : Reachable s) (hlf : totalsForLoan s lid = some (l, fig)) :
    fig.paid = round2 (amountsFor s lid).sum ∧
    fig.balance = max 0 (round2 (l.total_amount - fig.paid)) ∧
    (fig.balance ≤ 0 → fig.emisLeft = ((0:ℤ) : WithTop ℤ)) ∧
    (l.monthly_emi ≠ 0 →
      fig.emisLeft = if fig.balance ≤ 0 then ((0:ℤ) : WithTop ℤ)
        else ((⌈fig.balance / l.monthly_emi⌉ : ℤ) : WithTop ℤ)) ∧
    (fig.balance ≤ 0 ↔ l.total_amount ≤ paidFor s lid) := by
  unfold totalsForLoan at hlf
  cases hfind : findLoan s lid with
  | none => rw [hfind] at hlf; exact absurd hlf (by simp)
  | some l0 =>
    rw [hfind] at hlf
    have hpair := Option.some.inj hlf
    injection hpair with h1 h2
    subst h1
    subst h2
    have hinv := reachable_inv hreach
    obtain ⟨hmem, -⟩ := findLoan_mem hfind
    have hmul : ∀ a ∈ amountsFor s lid, IsMul100 a := amountsFor_mul100 hinv lid
    have hsum : IsMul100 (amountsFor s lid).sum := isMul100_sum hmul
    refine ⟨rfl, ?_, ?_, ?_, ?_⟩
    · show max 0 (round2 (l0.total_amount - (amountsFor s lid).sum))
        = max 0 (round2 (l0.total_amount - round2 (amountsFor s lid).sum))
      rw [round2_eq_self hsum]
    · intro hb
      rw [totalsFigures_emisLeft]
      unfold emisLeftOf
      rw [if_pos hb]
    · intro hemi
      rw [totalsFigures_emisLeft]
      unfold emisLeftOf
      by_cases hb : (totalsFigures l0.total_amount l0.monthly_emi
          (amountsFor s lid)).balance ≤ 0
      · rw [if_pos hb, if_pos hb]
      · rw [if_neg hb, if_neg hemi, if_neg hb]
    · exact totalsFigures_balance_le_zero l0.monthly_emi
        (hinv.loan_mul l0 hmem) hmul

/-- The figures `totalsForLoan` derives for the loan of `tinyPayStore`. -/
def tinyFig : Totals :=
  { paid := 0, balance := 110000, emisLeft := ((12:ℤ) : WithTop ℤ) }

theorem totalsForLoan_tiny_eval :
    totalsForLoan tinyPayStore 1 = some (demoLoan, tinyFig) := by
  have hceil : (⌈(11000000 / 916667 : ℚ)⌉ : ℤ) = 12 := by
    norm_num [Int.ceil_eq_iff]
  norm_num [totalsForLoan, findLoan, tinyPayStore, demoLoan, tinyPayment,
    amountsFor, totalsFigures, emisLeftOf, round2, tinyFig, hceil]

/-- C2 witness: the derived figures of the loan of `tinyPayStore`. -/
theorem C2_witness :
    Reachable tinyPayStore ∧
    totalsForLoan tinyPayStore 1 = some (demoLoan, tinyFig) ∧
    (tinyFig.paid = round2 (amountsFor tinyPayStore 1).sum ∧
     tinyFig.balance = max 0 (round2 (demoLoan.total_amount - tinyFig.paid)) ∧
     (tinyFig.balance ≤ 0 → tinyFig.emisLeft = ((0:ℤ) : WithTop ℤ)) ∧
     (demoLoan.monthly_emi ≠ 0 →
       tinyFig.emisLeft = if tinyFig.balance ≤ 0 then ((0:ℤ) : WithTop ℤ)
         else ((⌈tinyFig.balance / demoLoan.monthly_emi⌉ : ℤ) : WithTop ℤ)) ∧
     (tinyFig.balance ≤ 0 ↔ demoLoan.total_amount ≤ paidFor tinyPayStore 1)) :=
  ⟨tinyPayStore_reachable, totalsForLoan_tiny_eval,
   C2_derived_figures tinyPayStore_reachable totalsForLoan_tiny_eval⟩

/-- C6 counterexample: the submitted amount 0.001 is strictly positive,
passes validation, and is accepted — but the persisted payment row carries
`round2(0.001) = 0`, a stored amount of exactly zero in a reachable store,
refuting "no accepted payment is ever stored with amount 0". -/
theorem C6_counterexample :
    (0:ℚ) < 1/1000 ∧
    recordPayment demoStore 2 1 (1/1000) "EMI" 1 = .ok (tinyPayStore, tinyResp) ∧
    Reachable tinyPayStore ∧
    tinyPayment ∈ tinyPayStore.payments ∧ tinyPayment.amount = 0 := by
  refine ⟨by norm_num, recordPayment_tiny_eval, tinyPayStore_reachable, ?_, rfl⟩
  exact List.mem_singleton_self _

/-- C6 (amended): `recordPayment` rejects every submitted amount ≤ 0 with
`InvalidAmount` (for an existing loan), and every persisted payment amount
is nonnegative — but not necessarily strictly positive: the stored value is
the submitted amount rounded to two decimals, which is 0 for positive
submissions below 0.005. -/
theorem C6_amount_validation :
    (∀ (s : Store) (pid lid : ℕ) (amount : ℚ) (ptype : String) (now : ℕ)
      (l : Loan), findLoan s lid = some l → amount ≤ 0 →
      recordPayment s pid lid amount ptype now = .error .InvalidAmount) ∧
    (∀ s : Store, Reachable s → ∀ p ∈ s.payments, 0 ≤ p.amount) := by
  constructor
  · intro s pid lid amount ptype now l hf hamt
    unfold recordPayment
    rw [hf]
    dsimp only
    rw [if_pos hamt]
  · intro s hreach p hp
    exact (reachable_inv hreach).pay_nonneg p hp

/-- C6 witness: a −5 payment is rejected with `InvalidAmount`, and every
payment stored in the reachable `tinyPayStore` has a nonnegative amount. -/
theorem C6_witness :
    findLoan demoStore 1 = some demoLoan ∧ ((-5 : ℚ) ≤ 0) ∧
    recordPayment demoStore 9 1 (-5) "EMI" 3 = .error .InvalidAmount ∧
    Reachable tinyPayStore ∧ ∀ p ∈ tinyPayStore.payments, 0 ≤ p.amount := by
  have hfind : findLoan demoStore 1 = some demoLoan := by
    simp [findLoan, demoStore, demoLoan]
  exact ⟨hfind, by norm_num,
    C6_amount_validation.1 demoStore 9 1 (-5) "EMI" 3 demoLoan hfind (by norm_num),
    tinyPayStore_reachable,
    C6_amount_validation.2 tinyPayStore tinyPayStore_reachable⟩

/-- C5 counterexample: `createLoan` accepts principal 0.001 (it is > 0) and
stores `total_amount = round2(0.001) = 0`; the resulting reachable store
holds a loan whose cumulative payments (0) already reach its total payable
(0), yet whose status is ACTIVE, refuting "PAID_OFF exactly when the
cumulative recorded payments reach or exceed total_payable". -/
theorem C5_counterexample :
    Reachable degenStore ∧ degenLoan ∈ degenStore.loans ∧
    degenLoan.total_amount ≤ paidFor degenStore degenLoan.loan_id ∧
    degenLoan.status ≠ .PAID_OFF := by
  refine ⟨degenStore_reachable, List.mem_singleton_self _, ?_, by simp [degenLoan]⟩
  show (0:ℚ) ≤ paidFor degenStore 1
  norm_num [paidFor, amountsFor, degenStore]

/-- C5 (amended): in every reachable store, a loan whose stored
`total_amount` is positive is `PAID_OFF` exactly when its cumulative
recorded payments reach or exceed that total (so the flip happens at the
payment that first reaches it, exactly once); no operation ever takes a
`PAID_OFF` loan back to `ACTIVE`; and a freshly created loan always starts
`ACTIVE`.  (Only the degenerate loans whose stored total rounds to 0 —
the counterexample — escape the biconditional: they sit `ACTIVE` with
zero payments despite a reached total.) -/
theorem C5_status_invariant :
    (∀ s : Store, Reachable s → ∀ l ∈ s.loans, 0 < l.total_amount →
      (l.status = .PAID_OFF ↔ l.total_amount ≤ paidFor s l.loan_id)) ∧
    (∀ s s1 : Store, Reachable s → Step s s1 → ∀ l ∈ s.loans,
      l.status = .PAID_OFF → ∀ l1 ∈ s1.loans, l1.loan_id = l.loan_id →
      l1.status = .PAID_OFF) ∧
    (∀ (s : Store) (lid cid : ℕ) (P : ℚ) (N : ℕ) (R : ℚ) (now : ℕ)
      (s1 : Store) (r : LoanResp),
      createLoan s lid cid P N R now = .ok (s1, r) →
      ∀ l ∈ s1.loans, l ∉ s.loans → l.status = .ACTIVE) := by
  refine ⟨?_, ?_, ?_⟩
  · intro s hreach l hl htot
    have hinv := reachable_inv hreach
    have hsi := hinv.statusInv l hl
    constructor
    · intro hpo
      exact (hsi.mp hpo).2
    · intro hle
      apply hsi.mpr
      refine ⟨?_, hle⟩
      intro hnil
      have hz : paidFor s l.loan_id = 0 := by
        unfold paidFor
        rw [hnil, List.sum_nil]
      rw [hz] at hle
      exact absurd (lt_of_lt_of_le htot hle) (lt_irrefl 0)
  · intro s s1 hreach hstep l hl hpo l1 hl1 hid
    have hinv := reachable_inv hreach
    obtain ⟨op, hfresh, rfl⟩ := hstep
    cases op with
    | create lid cid P N R now =>
      simp only [applyOp] at hl1
      cases hc : createLoan s lid cid P N R now with
      | error e =>
        rw [hc] at hl1
        have : l1 = l := List.inj_on_of_nodup_map hinv.ids_nodup hl1 hl hid
        rw [this]
        exact hpo
      | ok v =>
        obtain ⟨t, resp⟩ := v
        rw [hc] at hl1
        obtain ⟨-, ht, -⟩ := createLoan_ok_elim hc
        rw [ht] at hl1
        have hl1' : l1 ∈ (upsertCustomer s cid).loans ++
            [{ loan_id := lid, customer_id := cid, principal_amount := P,
               interest_rate := R, loan_period_years := N,
               total_amount := round2 (computeSI P N R).2,
               monthly_emi := round2 ((computeSI P N R).2 / (N * 12)),
               status := .ACTIVE, created_at := now }] := hl1
        rw [upsertCustomer_loans] at hl1'
        rcases List.mem_append.mp hl1' with h | h
        · have : l1 = l := List.inj_on_of_nodup_map hinv.ids_nodup h hl hid
          rw [this]
          exact hpo
        · simp only [List.mem_singleton] at h
          subst h
          exact absurd hid.symm (hfresh l hl)
    | pay pid lid amount ptype now =>
      simp only [applyOp] at hl1
      cases hc : recordPayment s pid lid amount ptype now with
      | error e =>
        rw [hc] at hl1
        have : l1 = l := List.inj_on_of_nodup_map hinv.ids_nodup hl1 hl hid
        rw [this]
        exact hpo
      | ok v =>
        obtain ⟨t, resp⟩ := v
        rw [hc] at hl1
        obtain ⟨loan, hf, -, -, h3, hkey⟩ := recordPayment_ok_elim hc
        obtain ⟨hs2, -⟩ := hkey _ rfl _ rfl
        rw [hs2] at hl1
        by_cases hcond : ((totalsFigures loan.total_amount loan.monthly_emi
            (amountsFor { s with
              payments := s.payments ++
                [{ payment_id := pid, loan_id := lid, amount := round2 amount,
                   payment_type := ptype, payment_date := now,
                   rowid := s.nextRowid }],
              nextRowid := s.nextRowid + 1 } lid)).balance ≤ 0 ∧
            loan.status ≠ Status.PAID_OFF)
        · rw [if_pos hcond] at hl1
          obtain ⟨l2, hl2, rfl⟩ := mem_markPaidOff.mp hl1
          by_cases hid2 : l2.loan_id = lid
          · rw [if_pos hid2]
          · rw [if_neg hid2]
            rw [if_neg hid2] at hid
            have hl2' : l2 ∈ s.loans := hl2
            have : l2 = l := List.inj_on_of_nodup_map hinv.ids_nodup hl2' hl hid
            rw [this]
            exact hpo
        · rw [if_neg hcond] at hl1
          have hl1' : l1 ∈ s.loans := hl1
          have : l1 = l := List.inj_on_of_nodup_map hinv.ids_nodup hl1' hl hid
          rw [this]
          exact hpo
  · intro s lid cid P N R now s1 r hc l hl hnotin
    obtain ⟨-, ht, -⟩ := createLoan_ok_elim hc
    rw [ht] at hl
    have hl' : l ∈ (upsertCustomer s cid).loans ++
        [{ loan_id := lid, customer_id := cid, principal_amount := P,
           interest_rate := R, loan_period_years := N,
           total_amount := round2 (computeSI P N R).2,
           monthly_emi := round2 ((computeSI P N R).2 / (N * 12)),
           status := .ACTIVE, created_at := now }] := hl
    rw [upsertCustomer_loans] at hl'
    rcases List.mem_append.mp hl' with h | h
    · exact absurd h hnotin
    · simp only [List.mem_singleton] at h
      subst h
      rfl

/-- C5 witness: the first conjunct of the amended claim, evaluated on the
reachable `demoStore` and its loan (total 110000 > 0, nothing paid). -/
theorem C5_witness :
    Reachable demoStore ∧ demoLoan ∈ demoStore.loans ∧
    (0:ℚ) < demoLoan.total_amount ∧
    (demoLoan.status = .PAID_OFF ↔
      demoLoan.total_amount ≤ paidFor demoStore demoLoan.loan_id) :=
  ⟨demoStore_reachable, List.mem_singleton_self _, by norm_num [demoLoan],
   C5_status_invariant.1 demoStore demoStore_reachable demoLoan
     (List.mem_singleton_self _) (by norm_num [demoLoan])⟩

/-- C7: in every reachable store, the transaction list `getLedger` returns
for a loan is a permutation of that loan's stored payments, sorted by
occurrence time ascending with ties broken by `rowid` — and `rowid` is a
monotonically increasing sequence number assigned at insertion, so the
strict pairwise order (`txnLT`) makes the result a stable total order:
payments sharing a timestamp appear in insertion order. -/
theorem C7_ledger_order {s : Store} {lid : ℕ} {led : LedgerResp}
    (hreach : Reachable s) (hok : getLedger s lid = .ok led) :
    led.transactions.Perm (s.payments.filter (fun p => p.loan_id = lid)) ∧
    List.Sorted txnLE led.transactions ∧
    led.transactions.Pairwise txnLT ∧
    (s.payments.filter (fun p => p.loan_id = lid)).Pairwise
      (fun a b => a.rowid < b.rowid) := by
  have hinv := reachable_inv hreach
  unfold getLedger at hok
  cases ht : totalsForLoan s lid with
  | none => rw [ht] at hok; exact absurd hok (by simp)
  | some v =>
    obtain ⟨loan, fig⟩ := v
    rw [ht] at hok
    have htx : led.transactions =
        List.insertionSort txnLE (s.payments.filter (fun p => p.loan_id = lid)) := by
      have hrec := Except.ok.inj hok
      rw [← hrec]
    have hfilter : (s.payments.filter (fun p => p.loan_id = lid)).Pairwise
        (fun a b => a.rowid < b.rowid) :=
      hinv.rowid_mono.sublist (List.filter_sublist _)
    have hperm : led.transactions.Perm
        (s.payments.filter (fun p => p.loan_id = lid)) := by
      rw [htx]
      exact List.perm_insertionSort txnLE _
    have hsorted : List.Sorted txnLE led.transactions := by
      rw [htx]
      exact List.sorted_insertionSort txnLE _
    have hnd : led.transactions.Pairwise (fun a b => a.rowid ≠ b.rowid) := by
      have h1 : ((s.payments.filter (fun p => p.loan_id = lid)).map
          Payment.rowid).Nodup := by
        unfold List.Nodup
        rw [List.pairwise_map]
        exact hfilter.imp Nat.ne_of_lt
      have h2 : (led.transactions.map Payment.rowid).Nodup :=
        ((hperm.map Payment.rowid).nodup_iff).mpr h1
      unfold List.Nodup at h2
      rw [List.pairwise_map] at h2
      exact h2
    refine ⟨hperm, hsorted, ?_, hfilter⟩
    refine List.Pairwise.imp₂ ?_ hsorted hnd
    intro a b hle hne
    rcases hle with h | ⟨hdate, hrow⟩
    · exact Or.inl h
    · exact Or.inr ⟨hdate, lt_of_le_of_ne hrow hne⟩

/-- The ledger `getLedger` returns for the loan of `tinyPayStore`. -/
def tinyLedger : LedgerResp :=
  { loan_id := 1, customer_id := 7, principal := 100000,
    total_amount := 110000, monthly_emi := 916667/100, amount_paid := 0,
    balance_amount := 110000, emis_left := ((12:ℤ) : WithTop ℤ),
    status := .ACTIVE, transactions := [tinyPayment] }

theorem getLedger_tiny_eval : getLedger tinyPayStore 1 = .ok tinyLedger := by
  have hceil : (⌈(11000000 / 916667 : ℚ)⌉ : ℤ) = 12 := by
    norm_num [Int.ceil_eq_iff]
  norm_num [getLedger, totalsForLoan, findLoan, tinyPayStore, demoLoan,
    tinyPayment, amountsFor, totalsFigures, emisLeftOf, round2, tinyLedger,
    hceil, List.insertionSort]

/-- C7 witness: the ledger of `tinyPayStore`'s loan. -/
theorem C7_witness :
    Reachable tinyPayStore ∧ getLedger tinyPayStore 1 = .ok tinyLedger ∧
    (tinyLedger.transactions.Perm
      (tinyPayStore.payments.filter (fun p => p.loan_id = 1)) ∧
     List.Sorted txnLE tinyLedger.transactions ∧
     tinyLedger.transactions.Pairwise txnLT ∧
     (tinyPayStore.payments.filter (fun p => p.loan_id = 1)).Pairwise
       (fun a b => a.rowid < b.rowid)) :=
  ⟨tinyPayStore_reachable, getLedger_tiny_eval,
   C7_ledger_order tinyPayStore_reachable getLedger_tiny_eval⟩

/-- C8: a customer with zero loans gets `NoLoansForCustomer` (404); a
customer with at least one loan gets exactly one summary per loan, ordered
by loan creation time most recent first, and each summary's paid amount and
remaining-installment count equal the Engine derivation
(`totalsFigures`) recomputed from that loan's full payment history — the
store holds no running total at all, so the figures cannot come from one. -/
theorem C8_overview (s : Store) (cid : ℕ) :
    (s.loans.filter (fun l => l.customer_id = cid) = [] →
      getCustomerOverview s cid = .error .NoLoansForCustomer) ∧
    (∀ out : OverviewResp, getCustomerOverview s cid = .ok out →
      ∃ sorted : List Loan,
        sorted.Perm (s.loans.filter (fun l => l.customer_id = cid)) ∧
        sorted ≠ [] ∧
        List.Sorted createdDesc sorted ∧
        out.total_loans = sorted.length ∧
        out.loans = sorted.map (overviewEntry s) ∧
        ∀ ln ∈ sorted,
          (overviewEntry s ln).amount_paid =
            (totalsFigures ln.total_amount ln.monthly_emi
              (amountsFor s ln.loan_id)).paid ∧
          (overviewEntry s ln).emis_left =
            (totalsFigures ln.total_amount ln.monthly_emi
              (amountsFor s ln.loan_id)).emisLeft) := by
  constructor
  · intro hnil
    unfold getCustomerOverview
    rw [hnil]
    rfl
  · intro out hok
    unfold getCustomerOverview at hok
    by_cases hlen : (List.insertionSort createdDesc
        (s.loans.filter (fun l => l.customer_id = cid))).length = 0
    · rw [if_pos hlen] at hok
      exact absurd hok (by simp)
    · rw [if_neg hlen] at hok
      have hrec := Except.ok.inj hok
      refine ⟨List.insertionSort createdDesc
        (s.loans.filter (fun l => l.customer_id = cid)),
        List.perm_insertionSort _ _, ?_, List.sorted_insertionSort _ _,
        ?_, ?_, ?_⟩
      · intro hnil2
        exact hlen (by rw [hnil2]; rfl)
      · rw [← hrec]
      · rw [← hrec]
      · intro ln hln
        exact ⟨rfl, rfl⟩

/-- The overview response for customer 7 of `demoStore`. -/
def demoOverview : OverviewResp :=
  { customer_id := 7, total_loans := 1,
    loans := [overviewEntry demoStore demoLoan] }

theorem getCustomerOverview_demo_eval :
    getCustomerOverview demoStore 7 = .ok demoOverview := by
  norm_num [getCustomerOverview, demoStore, demoLoan, List.insertionSort,
    demoOverview]

/-- C8 witness: customer 99 of `demoStore` has no loans and gets the error;
customer 7 has one loan and gets its recomputed summary. -/
theorem C8_witness :
    demoStore.loans.filter (fun l => l.customer_id = 99) = [] ∧
    getCustomerOverview demoStore 99 = .error .NoLoansForCustomer ∧
    getCustomerOverview demoStore 7 = .ok demoOverview ∧
    (∃ sorted : List Loan,
      sorted.Perm (demoStore.loans.filter (fun l => l.customer_id = 7)) ∧
      sorted ≠ [] ∧
      List.Sorted createdDesc sorted ∧
      demoOverview.total_loans = sorted.length ∧
      demoOverview.loans = sorted.map (overviewEntry demoStore) ∧
      ∀ ln ∈ sorted,
        (overviewEntry demoStore ln).amount_paid =
          (totalsFigures ln.total_amount ln.monthly_emi
            (amountsFor demoStore ln.loan_id)).paid ∧
        (overviewEntry demoStore ln).emis_left =
          (totalsFigures ln.total_amount ln.monthly_emi
            (amountsFor demoStore ln.loan_id)).emisLeft) := by
  have hnil : demoStore.loans.filter (fun l => l.customer_id = 99) = [] := by
    simp [demoStore, demoLoan]
  exact ⟨hnil, (C8_overview demoStore 99).1 hnil,
    getCustomerOverview_demo_eval,
    (C8_overview demoStore 7).2 demoOverview getCustomerOverview_demo_eval⟩

/-- C10: across every operation performed on a reachable store (with the
database's fresh-primary-key guarantee), a loan's status is the only field
that can change: the loan row with the same id after the operation agrees
with the old row on customer, principal, rate, term, total payable,
installment and creation timestamp; and when the status did change, the
operation was a payment insertion and the new status is `PAID_OFF`. -/
theorem C10_loan_frame {s : Store} (op : Op) (hreach : Reachable s)
    (hfresh : opFresh s op) :
    ∀ l ∈ s.loans, ∀ l1 ∈ (applyOp s op).loans, l1.loan_id = l.loan_id →
      l1.customer_id = l.customer_id ∧
      l1.principal_amount = l.principal_amount ∧
      l1.interest_rate = l.interest_rate ∧
      l1.loan_period_years = l.loan_period_years ∧
      l1.total_amount = l.total_amount ∧
      l1.monthly_emi = l.monthly_emi ∧
      l1.created_at = l.created_at ∧
      (l1.status ≠ l.status →
        (∃ pid lid amount ptype now, op = .pay pid lid amount ptype now) ∧
        l1.status = .PAID_OFF) := by
  have hinv := reachable_inv hreach
  intro l hl l1 hl1 hid
  cases op with
  | create lid cid P N R now =>
    simp only [applyOp] at hl1
    cases hc : createLoan s lid cid P N R now with
    | error e =>
      rw [hc] at hl1
      have heq : l1 = l := List.inj_on_of_nodup_map hinv.ids_nodup hl1 hl hid
      subst heq
      exact ⟨rfl, rfl, rfl, rfl, rfl, rfl, rfl, fun h => absurd rfl h⟩
    | ok v =>
      obtain ⟨t, resp⟩ := v
      rw [hc] at hl1
      obtain ⟨-, ht, -⟩ := createLoan_ok_elim hc
      rw [ht] at hl1
      have hl1' : l1 ∈ (upsertCustomer s cid).loans ++
          [{ loan_id := lid, customer_id := cid, principal_amount := P,
             interest_rate := R, loan_period_years := N,
             total_amount := round2 (computeSI P N R).2,
             monthly_emi := round2 ((computeSI P N R).2 / (N * 12)),
             status := .ACTIVE, created_at := now }] := hl1
      rw [upsertCustomer_loans] at hl1'
      rcases List.mem_append.mp hl1' with h | h
      · have heq : l1 = l := List.inj_on_of_nodup_map hinv.ids_nodup h hl hid
        subst heq
        exact ⟨rfl, rfl, rfl, rfl, rfl, rfl, rfl, fun h => absurd rfl h⟩
      · simp only [List.mem_singleton] at h
        subst h
        exact absurd hid.symm (hfresh l hl)
  | pay pid lid amount ptype now =>
    simp only [applyOp] at hl1
    cases hc : recordPayment s pid lid amount ptype now with
    | error e =>
      rw [hc] at hl1
      have heq : l1 = l := List.inj_on_of_nodup_map hinv.ids_nodup hl1 hl hid
      subst heq
      exact ⟨rfl, rfl, rfl, rfl, rfl, rfl, rfl, fun h => absurd rfl h⟩
    | ok v =>
      obtain ⟨t, resp⟩ := v
      rw [hc] at hl1
      obtain ⟨loan, hf, -, -, h3, hkey⟩ := recordPayment_ok_elim hc
      obtain ⟨hs2, -⟩ := hkey _ rfl _ rfl
      rw [hs2] at hl1
      by_cases hcond : ((totalsFigures loan.total_amount loan.monthly_emi
          (amountsFor { s with
            payments := s.payments ++
              [{ payment_id := pid, loan_id := lid, amount := round2 amount,
                 payment_type := ptype, payment_date := now,
                 rowid := s.nextRowid }],
            nextRowid := s.nextRowid + 1 } lid)).balance ≤ 0 ∧
          loan.status ≠ Status.PAID_OFF)
      · rw [if_pos hcond] at hl1
        obtain ⟨l2, hl2, rfl⟩ := mem_markPaidOff.mp hl1
        have hl2' : l2 ∈ s.loans := hl2
        by_cases hid2 : l2.loan_id = lid
        · rw [if_pos hid2] at hid ⊢
          have heq : l2 = l := List.inj_on_of_nodup_map hinv.ids_nodup hl2' hl hid
          subst heq
          exact ⟨rfl, rfl, rfl, rfl, rfl, rfl, rfl,
            fun _ => ⟨⟨pid, lid, amount, ptype, now, rfl⟩, rfl⟩⟩
        · rw [if_neg hid2] at hid ⊢
          have heq : l2 = l := List.inj_on_of_nodup_map hinv.ids_nodup hl2' hl hid
          subst heq
          exact ⟨rfl, rfl, rfl, rfl, rfl, rfl, rfl, fun h => absurd rfl h⟩
      · rw [if_neg hcond] at hl1
        have hl1' : l1 ∈ s.loans := hl1
        have heq : l1 = l := List.inj_on_of_nodup_map hinv.ids_nodup hl1' hl hid
        subst heq
        exact ⟨rfl, rfl, rfl, rfl, rfl, rfl, rfl, fun h => absurd rfl h⟩

/-- C10 witness: the tiny payment against `demoStore` leaves every field of
its loan except (possibly) the status unchanged. -/
theorem C10_witness :
    Reachable demoStore ∧ opFresh demoStore (.pay 2 1 (1/1000) "EMI" 1) ∧
    demoLoan ∈ demoStore.loans ∧ demoLoan ∈ (applyOp demoStore (.pay 2 1 (1/1000) "EMI" 1)).loans ∧
    (demoLoan.customer_id = demoLoan.customer_id ∧
     demoLoan.principal_amount = demoLoan.principal_amount ∧
     demoLoan.interest_rate = demoLoan.interest_rate ∧
     demoLoan.loan_period_years = demoLoan.loan_period_years ∧
     demoLoan.total_amount = demoLoan.total_amount ∧
     demoLoan.monthly_emi = demoLoan.monthly_emi ∧
     demoLoan.created_at = demoLoan.created_at ∧
     (demoLoan.status ≠ demoLoan.status →
       (∃ pid lid amount ptype now,
         (Op.pay 2 1 (1/1000) "EMI" 1) = .pay pid lid amount ptype now) ∧
       demoLoan.status = .PAID_OFF)) := by
  have hmem : demoLoan ∈ (applyOp demoStore (.pay 2 1 (1/1000) "EMI" 1)).loans := by
    show demoLoan ∈ (match recordPayment demoStore 2 1 (1/1000) "EMI" 1 with
      | .ok (s1, _) => s1 | .error _ => demoStore).loans
    rw [recordPayment_tiny_eval]
    exact List.mem_singleton_self _
  exact ⟨demoStore_reachable, trivial, List.mem_singleton_self _, hmem,
    C10_loan_frame (.pay 2 1 (1/1000) "EMI" 1) demoStore_reachable trivial
      demoLoan (List.mem_singleton_self _) demoLoan hmem rfl⟩
